import Mathlib

/-!
Verification of the e2ee-chat relay and client against its specification.

The server model follows src/unnamed/part_000 (the relay); the client model
follows src/src/public/ts/script.ts. Platform cryptography (WebCrypto ECDH and
AES-GCM) and platform text encoding are not part of the repository and are
modelled from the spec where a claim needs them; every such definition says so
in its doc comment.
-/

namespace E2EE

/-- A ciphertext envelope as it travels on the wire: the initialization vector
(the 12-byte array is modelled by its numeric value) and the ciphertext byte
array, mirroring the iv and data number arrays of the source types. -/
structure Envelope where
  iv : Nat
  data : List Nat
deriving DecidableEq, Repr

/-- A connected client session stored by the server, mirroring the source type
Client: session id, transport handle (the WebSocket is modelled as a numeric
handle), and the optional published public key. -/
structure Client where
  id : String
  socket : Nat
  publicKey : Option String
deriving DecidableEq, Repr

/-- Messages received by the server from clients (source type IncomingMessage). -/
inductive IncomingMessage
  | publicKey (key : String)
  | getPublicKey (for_ : String)
  | message (to_ : String) (ciphertext : Envelope)
deriving DecidableEq, Repr

/-- Messages sent by the server to clients (source type OutgoingMessage).
senderPublicKey is optional: an undefined field in the source is dropped by
JSON.stringify, modelled as none. -/
inductive OutgoingMessage
  | init (sessionId : String)
  | publicKey (for_ : String) (key : String)
  | message (from_ : String) (ciphertext : Envelope) (senderPublicKey : Option String)
deriving DecidableEq, Repr

/-- Lookup in a string-keyed map, modelling Map.get (undefined modelled as none). -/
def mapGet {α : Type} (m : List (String × α)) (k : String) : Option α :=
  match m with
  | [] => none
  | (k0, v) :: rest => if k0 = k then some v else mapGet rest k

/-- Insert-or-overwrite, modelling Map.set. -/
def mapSet {α : Type} (m : List (String × α)) (k : String) (v : α) : List (String × α) :=
  match m with
  | [] => [(k, v)]
  | (k0, v0) :: rest => if k0 = k then (k, v) :: rest else (k0, v0) :: mapSet rest k v

/-- Deletion, modelling Map.delete; idempotent on absent keys. -/
def mapDelete {α : Type} (m : List (String × α)) (k : String) : List (String × α) :=
  match m with
  | [] => []
  | (k0, v0) :: rest => if k0 = k then mapDelete rest k else (k0, v0) :: mapDelete rest k

/-- The server's registry of live sessions: the clients map of the source. -/
def Registry : Type := List (String × Client)

/-- Log levels the server handler emits: console.warn and console.error. -/
inductive LogLevel
  | warn
  | error
deriving DecidableEq, Repr

/-- One inbound frame as seen by the ws message handler after the JSON.parse
attempt: a successfully parsed protocol message, a frame that parsed but whose
type is none of the three known kinds (the switch default), or a frame on
which parsing threw (handled by the catch block). -/
inductive Frame
  | parsed (m : IncomingMessage)
  | unknownType
  | malformed
deriving DecidableEq, Repr

/-- Source generateSessionId: Math.floor(100000 + Math.random() * 900000)
rendered as a decimal string. Math.random() draws from the half-open unit
interval, so the floor is 100000 + k for some k < 900000; the random draw is
modelled by the natural number k. The registry is not consulted. -/
def generateSessionId (k : Nat) : String :=
  toString (100000 + k % 900000)

/-- The wss connection handler: allocate an id from the random draw k, store
the client (Map.set silently overwrites any existing entry under the same
id), and send the init message on the new socket. Returns the new registry,
the allocated id, and the messages sent (socket handle paired with payload). -/
def handleConnection (clients : Registry) (k : Nat) (sock : Nat) :
    Registry × String × List (Nat × OutgoingMessage) :=
  let sessionId := generateSessionId k
  (mapSet clients sessionId ⟨sessionId, sock, none⟩, sessionId,
    [(sock, OutgoingMessage.init sessionId)])

/-- The ws message handler of the server. The try/catch wrapping the dispatch
turns every throw (a JSON.parse failure, or the non-null assertion in the
publicKey case when the session was already removed by a racing close) into a
console.error; the switch default logs console.warn. The getPublicKey reply
is guarded by the source's JS truthiness test on recipient?.publicKey, under
which an absent session, a missing key and the empty-string key all suppress
the reply. Returns the new registry, the messages sent (socket handle paired
with payload), and the logs. -/
def handleMessage (clients : Registry) (sessionId : String) (wsSock : Nat)
    (frame : Frame) : Registry × List (Nat × OutgoingMessage) × List LogLevel :=
  match frame with
  | Frame.parsed (IncomingMessage.publicKey key) =>
    match mapGet clients sessionId with
    | some c => (mapSet clients sessionId { c with publicKey := some key }, [], [])
    | none => (clients, [], [LogLevel.error])
  | Frame.parsed (IncomingMessage.getPublicKey f) =>
    match (mapGet clients f).bind Client.publicKey with
    | some key =>
      if key = "" then (clients, [], [])
      else (clients, [(wsSock, OutgoingMessage.publicKey f key)], [])
    | none => (clients, [], [])
  | Frame.parsed (IncomingMessage.message to_ ct) =>
    match mapGet clients to_ with
    | some recipient =>
      (clients,
        [(recipient.socket,
          OutgoingMessage.message sessionId ct
            ((mapGet clients sessionId).bind Client.publicKey))],
        [])
    | none => (clients, [], [])
  | Frame.unknownType => (clients, [], [LogLevel.warn])
  | Frame.malformed => (clients, [], [LogLevel.error])

/-- The ws close handler of the server: clients.delete(sessionId). -/
def handleClose (clients : Registry) (sessionId : String) : Registry :=
  mapDelete clients sessionId

/-- Modelled from the spec: crypto.subtle ECDH P-256 key agreement is platform
code, not part of this repository. Spec section 4.3 requires deriveForPeer to
run key agreement of the local private key against the peer's public key,
deterministically, both sides deriving the identical key. The P-256 group is
modelled as modular exponentiation with a fixed generator and modulus; a
private key is a scalar exponent. -/
def ecdhModulus : Nat := 65537

/-- Modelled from the spec: the generator of the model group. -/
def ecdhGen : Nat := 3

/-- The raw public key of the key pair whose private scalar is priv, as
produced by generateECDHKeyPair and read back by exportPublicKey before the
transport encoding is applied. -/
def exportPublicKeyNum (priv : Nat) : Nat :=
  ecdhGen ^ priv % ecdhModulus

/-- Source deriveSharedKey: ECDH key agreement between our private key and the
peer's public key yielding the AES key; a pure function of its two inputs. -/
def deriveSharedKey (priv pub : Nat) : Nat :=
  pub ^ priv % ecdhModulus

/-- Source exportPublicKey base64-encodes the raw key bytes for transport; the
transport string of a model key is its decimal rendering. -/
def encodeKey (k : Nat) : String := toString k

/-- Decimal-digit test on a character, by code point. -/
def isDigitChar (c : Char) : Bool := 48 ≤ c.toNat && c.toNat ≤ 57

/-- Parse a nonempty run of decimal digits, none on any other character. -/
def decodeKeyChars : List Char → Nat → Option Nat
  | [], acc => some acc
  | c :: cs, acc =>
    if isDigitChar c then decodeKeyChars cs (acc * 10 + (c.toNat - 48)) else none

/-- Source importPublicKey: atob followed by crypto.subtle.importKey, both of
which throw on a string that is not a valid encoding of a key; modelled as
decimal parsing of the transport string, none on malformed input. -/
def importPublicKey (s : String) : Option Nat :=
  match s.data with
  | [] => none
  | cs => decodeKeyChars cs 0

/-- Modelled from the spec: crypto.subtle AES-GCM is platform code, not part
of this repository. Spec section 4.4 requires an authenticated cipher: seal
encrypts under a key and a fresh iv, open verifies the authentication tag and
fails rather than returning garbage when it does not match. Modelled as a
position-dependent keystream cipher over bytes with an appended tag. -/
def keystream (key iv i : Nat) : Nat := (key + iv * 7 + i * 131) % 256

/-- Encrypt a byte sequence, positions counted from i. -/
def encBytesFrom (key iv i : Nat) : List Nat → List Nat
  | [] => []
  | p :: rest => (p + keystream key iv i) % 256 :: encBytesFrom key iv (i + 1) rest

/-- Decrypt a byte sequence, positions counted from i. -/
def decBytesFrom (key iv i : Nat) : List Nat → List Nat
  | [] => []
  | c :: rest => (c + 256 - keystream key iv i) % 256 :: decBytesFrom key iv (i + 1) rest

/-- The authentication tag of a ciphertext under a key and iv. -/
def authTag (key iv : Nat) (ct : List Nat) : Nat :=
  (key + iv + ct.sum + 1) % 256

/-- AES-GCM encryption in the model: ciphertext bytes followed by the tag. -/
def sealBytes (key iv : Nat) (pt : List Nat) : List Nat :=
  encBytesFrom key iv 0 pt ++ [authTag key iv (encBytesFrom key iv 0 pt)]

/-- AES-GCM decryption in the model: verify the tag, none on failure
(modelling the thrown DOMException), otherwise decrypt. -/
def openBytes (key iv : Nat) (data : List Nat) : Option (List Nat) :=
  if data = [] then none
  else if data.getLastD 0 = authTag key iv data.dropLast
  then some (decBytesFrom key iv 0 data.dropLast)
  else none

/-- Modelled from the spec: TextEncoder is platform code; it encodes the
plaintext to its UTF-8 byte sequence. UTF-8 encoding of one code point. -/
def utf8EncodeChar (n : Nat) : List Nat :=
  if n < 0x80 then [n]
  else if n < 0x800 then [0xC0 + n / 0x40, 0x80 + n % 0x40]
  else if n < 0x10000 then
    [0xE0 + n / 0x1000, 0x80 + n / 0x40 % 0x40, 0x80 + n % 0x40]
  else
    [0xF0 + n / 0x40000, 0x80 + n / 0x1000 % 0x40, 0x80 + n / 0x40 % 0x40,
      0x80 + n % 0x40]

/-- UTF-8 encoding of a sequence of code points. -/
def utf8Encode : List Char → List Nat
  | [] => []
  | c :: cs => utf8EncodeChar c.toNat ++ utf8Encode cs

/-- Decode one UTF-8 sequence: given the lead byte and the following bytes,
return the code point and the remaining bytes, none on an invalid sequence. -/
def utf8DecAux (b : Nat) (bs : List Nat) : Option (Nat × List Nat) :=
  if b < 0x80 then some (b, bs)
  else if b < 0xC0 then none
  else if b < 0xE0 then
    match bs with
    | b1 :: bs1 =>
      if 0x80 ≤ b1 ∧ b1 < 0xC0 then
        some ((b - 0xC0) * 0x40 + (b1 - 0x80), bs1)
      else none
    | [] => none
  else if b < 0xF0 then
    match bs with
    | b1 :: b2 :: bs2 =>
      if (0x80 ≤ b1 ∧ b1 < 0xC0) ∧ (0x80 ≤ b2 ∧ b2 < 0xC0) then
        some ((b - 0xE0) * 0x1000 + (b1 - 0x80) * 0x40 + (b2 - 0x80), bs2)
      else none
    | _ => none
  else if b < 0xF8 then
    match bs with
    | b1 :: b2 :: b3 :: bs3 =>
      if (0x80 ≤ b1 ∧ b1 < 0xC0) ∧ (0x80 ≤ b2 ∧ b2 < 0xC0) ∧ (0x80 ≤ b3 ∧ b3 < 0xC0) then
        some ((b - 0xF0) * 0x40000 + (b1 - 0x80) * 0x1000
          + (b2 - 0x80) * 0x40 + (b3 - 0x80), bs3)
      else none
    | _ => none
  else none

/-- Decode UTF-8 sequences while fuel lasts; each decoded code point consumes
one unit of fuel, so fuel equal to the byte count always suffices. -/
def utf8DecFuel : Nat → List Nat → Option (List Char)
  | _, [] => some []
  | 0, _ :: _ => none
  | fuel + 1, b :: bs =>
    match utf8DecAux b bs with
    | none => none
    | some (n, rest) => (utf8DecFuel fuel rest).map (fun cs => Char.ofNat n :: cs)

/-- Modelled from the spec: TextDecoder is platform code; it decodes a UTF-8
byte sequence back to text, failing on byte sequences that are not valid
UTF-8. -/
def utf8Dec (bs : List Nat) : Option (List Char) :=
  utf8DecFuel bs.length bs

/-- The new TextEncoder().encode call of the source on a plaintext string. -/
def textEncode (s : String) : List Nat := utf8Encode s.data

/-- The new TextDecoder().decode call of the source on decrypted bytes. -/
def textDecode (bs : List Nat) : Option String :=
  (utf8Dec bs).map String.mk

/-- Source encryptWithKey: draw a fresh iv (the random draw is modelled by the
numeric iv argument), UTF-8 encode the plaintext, AES-GCM encrypt, and return
the envelope of iv and ciphertext bytes. -/
def encryptWithKey (key iv : Nat) (plaintext : String) : Envelope :=
  ⟨iv, sealBytes key iv (textEncode plaintext)⟩

/-- Source decryptWithKey: AES-GCM decrypt (none models the DOMException
thrown on authentication failure) and UTF-8 decode the plaintext bytes. -/
def decryptWithKey (key : Nat) (e : Envelope) : Option String :=
  (openBytes key e.iv e.data).bind textDecode

/-- A client-side peer entry: the imported public key of the remote session
and the derived shared AES key (source peers map values). -/
structure PeerEntry where
  publicKey : Nat
  sharedKey : Nat
deriving DecidableEq, Repr

/-- The client's mutable state: its session id, its ECDH key pair (identified
by the private scalar; the public key is derivable), the peers map, and the
lines appended to the messages list (the user-facing layer). -/
structure ClientState where
  sessionId : Option String
  myECDHKeyPair : Option Nat
  peers : List (String × PeerEntry)
  displayed : List String
deriving DecidableEq, Repr

/-- Platform inputs consumed by one client event handler run: the private
scalar drawn by generateECDHKeyPair, the iv drawn by getRandomValues, and the
current text of the message input box (the empty string, a falsy value in the
source, models an empty box). -/
structure ClientEnv where
  freshPriv : Nat
  freshIv : Nat
  inputText : String
deriving DecidableEq, Repr

/-- Messages received by the client from the server (source type ChatMessage).
The source type declares senderPublicKey as a string, but the server omits the
field when the sender has not published a key; the field is therefore an
Option here, none for a missing field. -/
inductive ChatMessage
  | init (sessionId : String)
  | publicKey (for_ : String) (key : String)
  | message (from_ : String) (ciphertext : Envelope) (senderPublicKey : Option String)
deriving DecidableEq, Repr

/-- Payloads the client writes to its WebSocket, one constructor per ws.send
call site in the source. -/
inductive OutboundMessage
  | publicKey (key : String)
  | getPublicKey (for_ : String)
  | message (to_ : String) (ciphertext : Envelope)
deriving DecidableEq, Repr

/-- Events driving the client: a ws message delivery or a click on the send
button (carrying the trimmed recipient input value). -/
inductive ClientEvent
  | wsMessage (m : ChatMessage)
  | sendClick (recipientId : String)
deriving DecidableEq, Repr

/-- The result of one client handler run: the new state, the payloads written
to the WebSocket in order, and whether the run ended in a thrown error. The
handlers are async functions with no catch: a throw (failed key import,
failed decrypt, or the non-null peers lookup on an unknown sender) rejects
the promise, which the platform reports without terminating the page. -/
structure StepResult where
  state : ClientState
  sent : List OutboundMessage
  errored : Bool
deriving DecidableEq, Repr

/-- Source sendMessage: read the input box; return unless the recipient is a
known peer and the text is nonempty; otherwise encrypt under the peer's
shared key with a fresh iv, send the envelope, and append the local echo
line. Returns the new state and the payloads written. -/
def sendMessage (env : ClientEnv) (st : ClientState) (recipientId : String) :
    ClientState × List OutboundMessage :=
  match mapGet st.peers recipientId with
  | none => (st, [])
  | some pe =>
    if env.inputText = "" then (st, [])
    else
      ({ st with displayed :=
          st.displayed ++ ["To [" ++ recipientId ++ "]: " ++ env.inputText] },
        [OutboundMessage.message recipientId
          (encryptWithKey pe.sharedKey env.freshIv env.inputText)])

/-- The client's ws.onmessage handler and send-button click handler, one step
per delivered event, translated branch for branch from the source. In the
message branch, when the sender is unknown and a key pair exists, the client
first tries to bootstrap a peer entry from the embedded sender key; a
failed import throws before the peers map is touched. The later non-null peers
lookup throws when no entry exists. -/
def clientStep (env : ClientEnv) (st : ClientState) (ev : ClientEvent) : StepResult :=
  match ev with
  | ClientEvent.wsMessage (ChatMessage.init sid) =>
    ⟨{ st with sessionId := some sid, myECDHKeyPair := some env.freshPriv },
      [OutboundMessage.publicKey (encodeKey (exportPublicKeyNum env.freshPriv))], false⟩
  | ClientEvent.wsMessage (ChatMessage.publicKey peerId key) =>
    match st.myECDHKeyPair with
    | none => ⟨st, [], false⟩
    | some priv =>
      match importPublicKey key with
      | none => ⟨st, [], true⟩
      | some pk =>
        let st1 :=
          { st with peers := mapSet st.peers peerId ⟨pk, deriveSharedKey priv pk⟩ }
        let r := sendMessage env st1 peerId
        ⟨r.1, r.2, false⟩
  | ClientEvent.wsMessage (ChatMessage.message senderId ct spk) =>
    let bootstrap : Option (List (String × PeerEntry)) :=
      match mapGet st.peers senderId, st.myECDHKeyPair with
      | none, some priv =>
        match spk.bind importPublicKey with
        | none => none
        | some pk => some (mapSet st.peers senderId ⟨pk, deriveSharedKey priv pk⟩)
      | _, _ => some st.peers
    match bootstrap with
    | none => ⟨st, [], true⟩
    | some peers1 =>
      match mapGet peers1 senderId with
      | none => ⟨st, [], true⟩
      | some pe =>
        match decryptWithKey pe.sharedKey ct with
        | none => ⟨{ st with peers := peers1 }, [], true⟩
        | some pt =>
          let st2 := { st with peers := peers1 }
          ⟨{ st2 with displayed := st2.displayed ++ ["[" ++ senderId ++ "]: " ++ pt] },
            [], false⟩
  | ClientEvent.sendClick recipientId =>
    if recipientId = "" then ⟨st, [], false⟩
    else if (mapGet st.peers recipientId).isNone then
      ⟨st, [OutboundMessage.getPublicKey recipientId], false⟩
    else
      let r := sendMessage env st recipientId
      ⟨r.1, r.2, false⟩

/-- The state of a freshly loaded client page. -/
def initialClientState : ClientState := ⟨none, none, [], []⟩

/-- Run a trace of events from a state, collecting every payload the client
writes to its WebSocket, in order. -/
def clientRun (st : ClientState) :
    List (ClientEnv × ClientEvent) → ClientState × List OutboundMessage
  | [] => (st, [])
  | (env, ev) :: rest =>
    let r := clientStep env st ev
    let rest' := clientRun r.state rest
    (rest'.1, r.sent ++ rest'.2)

/-- The payload shapes the client may write: the transport encoding of an
exported public key of some key pair, a key request carrying a peer id, or an
encryption envelope produced by encryptWithKey; neither a private key, nor a
shared key, nor a plaintext. -/
def OutboundOk (m : OutboundMessage) : Prop :=
  (∃ priv, m = OutboundMessage.publicKey (encodeKey (exportPublicKeyNum priv))) ∨
  (∃ pid, m = OutboundMessage.getPublicKey pid) ∨
  (∃ to_ key iv pt, m = OutboundMessage.message to_ (encryptWithKey key iv pt))

theorem mapGet_mapSet_ne {α : Type} (m : List (String × α)) (k j : String) (v : α)
    (h : j ≠ k) : mapGet (mapSet m k v) j = mapGet m j := by
  induction m with
  | nil => simp [mapGet, mapSet, Ne.symm h]
  | cons hd tl ih =>
    obtain ⟨k0, v0⟩ := hd
    by_cases hk : k0 = k
    · subst hk
      simp [mapGet, mapSet, Ne.symm h]
    · simp only [mapSet, if_neg hk, mapGet]
      by_cases hj : k0 = j
      · simp [hj]
      · simp [hj, ih]

theorem keystream_lt (key iv i : Nat) : keystream key iv i < 256 :=
  Nat.mod_lt _ (by omega)

theorem decBytesFrom_encBytesFrom (key iv : Nat) (pt : List Nat) :
    ∀ i, (∀ b ∈ pt, b < 256) →
      decBytesFrom key iv i (encBytesFrom key iv i pt) = pt := by
  induction pt with
  | nil => intro i _; rfl
  | cons p rest ih =>
    intro i h
    have hp : p < 256 := h p (List.mem_cons_self p rest)
    have hs : keystream key iv i < 256 := keystream_lt key iv i
    rw [encBytesFrom, decBytesFrom,
      ih (i + 1) (fun b hb => h b (List.mem_cons_of_mem _ hb))]
    congr 1
    omega

theorem openBytes_sealBytes (key iv : Nat) (pt : List Nat)
    (h : ∀ b ∈ pt, b < 256) :
    openBytes key iv (sealBytes key iv pt) = some pt := by
  have hne : encBytesFrom key iv 0 pt
      ++ [authTag key iv (encBytesFrom key iv 0 pt)] ≠ [] := by simp
  unfold openBytes sealBytes
  rw [if_neg hne, List.dropLast_concat, List.getLastD_concat, if_pos rfl,
    decBytesFrom_encBytesFrom key iv pt 0 h]

theorem char_toNat_lt (c : Char) : c.toNat < 0x110000 := by
  rcases c.valid with h | ⟨_, h2⟩
  · exact Nat.lt_trans h (by norm_num)
  · exact h2

theorem utf8EncodeChar_lt (n : Nat) (hn : n < 0x110000) :
    ∀ b ∈ utf8EncodeChar n, b < 256 := by
  intro b hb
  by_cases h1 : n < 0x80
  · simp [utf8EncodeChar, h1] at hb
    omega
  · by_cases h2 : n < 0x800
    · simp [utf8EncodeChar, h1, h2] at hb
      rcases hb with hb | hb <;> omega
    · by_cases h3 : n < 0x10000
      · simp [utf8EncodeChar, h1, h2, h3] at hb
        rcases hb with hb | hb | hb <;> omega
      · simp [utf8EncodeChar, h1, h2, h3] at hb
        rcases hb with hb | hb | hb | hb <;> omega

theorem textEncode_lt (s : String) : ∀ b ∈ textEncode s, b < 256 := by
  unfold textEncode
  generalize s.data = cs
  induction cs with
  | nil => intro b hb; cases hb
  | cons c cs ih =>
    intro b hb
    have hb2 : b ∈ utf8EncodeChar c.toNat ++ utf8Encode cs := hb
    rcases List.mem_append.mp hb2 with h | h
    · exact utf8EncodeChar_lt c.toNat (char_toNat_lt c) b h
    · exact ih b h

theorem utf8DecAux_suffix_le (b : Nat) (bs : List Nat) (n : Nat) (rest : List Nat)
    (h : utf8DecAux b bs = some (n, rest)) : rest.length ≤ bs.length := by
  unfold utf8DecAux at h
  repeat' split at h
  all_goals simp_all
  all_goals omega

theorem utf8DecFuel_congr (fuel1 : Nat) :
    ∀ (fuel2 : Nat) (bs : List Nat), bs.length ≤ fuel1 → bs.length ≤ fuel2 →
      utf8DecFuel fuel1 bs = utf8DecFuel fuel2 bs := by
  induction fuel1 with
  | zero =>
    intro fuel2 bs h1 _
    cases bs with
    | nil => cases fuel2 <;> rfl
    | cons b bs2 => simp at h1
  | succ f ih =>
    intro fuel2 bs h1 h2
    cases bs with
    | nil => cases fuel2 <;> rfl
    | cons b bs2 =>
      cases fuel2 with
      | zero => simp at h2
      | succ f2 =>
        simp only [utf8DecFuel]
        cases ha : utf8DecAux b bs2 with
        | none => rfl
        | some p =>
          obtain ⟨n, rest⟩ := p
          have hs := utf8DecAux_suffix_le b bs2 n rest ha
          simp only [List.length_cons] at h1 h2
          exact congrArg (Option.map fun cs => Char.ofNat n :: cs)
            (ih f2 rest (by omega) (by omega))

theorem utf8DecAux_encodeChar (n : Nat) (hn : n < 0x110000) (bs : List Nat) :
    utf8DecAux ((utf8EncodeChar n ++ bs).headD 0) ((utf8EncodeChar n ++ bs).tail)
      = some (n, bs) := by
  by_cases h1 : n < 0x80
  · rw [utf8EncodeChar, if_pos h1]
    simp only [List.cons_append, List.nil_append, List.headD_cons, List.tail_cons]
    unfold utf8DecAux
    rw [if_pos h1]
  · by_cases h2 : n < 0x800
    · rw [utf8EncodeChar, if_neg h1, if_pos h2]
      simp only [List.cons_append, List.nil_append, List.headD_cons, List.tail_cons]
      have e4 : 0x80 ≤ 0x80 + n % 0x40 ∧ 0x80 + n % 0x40 < 0xC0 := by
        constructor <;> omega
      have e5 : (0xC0 + n / 0x40 - 0xC0) * 0x40 + (0x80 + n % 0x40 - 0x80) = n := by
        omega
      unfold utf8DecAux
      simp only [if_neg (by omega : ¬(0xC0 + n / 0x40 < 0x80)),
        if_neg (by omega : ¬(0xC0 + n / 0x40 < 0xC0)),
        if_pos (by omega : 0xC0 + n / 0x40 < 0xE0), if_pos e4, e5]
    · by_cases h3 : n < 0x10000
      · rw [utf8EncodeChar, if_neg h1, if_neg h2, if_pos h3]
        simp only [List.cons_append, List.nil_append, List.headD_cons, List.tail_cons]
        have e4 : (0x80 ≤ 0x80 + n / 0x40 % 0x40 ∧ 0x80 + n / 0x40 % 0x40 < 0xC0)
            ∧ (0x80 ≤ 0x80 + n % 0x40 ∧ 0x80 + n % 0x40 < 0xC0) := by
          refine ⟨⟨?_, ?_⟩, ?_, ?_⟩ <;> omega
        have e5 : (0xE0 + n / 0x1000 - 0xE0) * 0x1000
              + (0x80 + n / 0x40 % 0x40 - 0x80) * 0x40
              + (0x80 + n % 0x40 - 0x80) = n := by omega
        unfold utf8DecAux
        simp only [if_neg (by omega : ¬(0xE0 + n / 0x1000 < 0x80)),
          if_neg (by omega : ¬(0xE0 + n / 0x1000 < 0xC0)),
          if_neg (by omega : ¬(0xE0 + n / 0x1000 < 0xE0)),
          if_pos (by omega : 0xE0 + n / 0x1000 < 0xF0), if_pos e4, e5]
      · rw [utf8EncodeChar, if_neg h1, if_neg h2, if_neg h3]
        simp only [List.cons_append, List.nil_append, List.headD_cons, List.tail_cons]
        have e4 : (0x80 ≤ 0x80 + n / 0x1000 % 0x40 ∧ 0x80 + n / 0x1000 % 0x40 < 0xC0)
            ∧ (0x80 ≤ 0x80 + n / 0x40 % 0x40 ∧ 0x80 + n / 0x40 % 0x40 < 0xC0)
            ∧ (0x80 ≤ 0x80 + n % 0x40 ∧ 0x80 + n % 0x40 < 0xC0) := by
          refine ⟨⟨?_, ?_⟩, ⟨?_, ?_⟩, ?_, ?_⟩ <;> omega
        have e5 : (0xF0 + n / 0x40000 - 0xF0) * 0x40000
              + (0x80 + n / 0x1000 % 0x40 - 0x80) * 0x1000
              + (0x80 + n / 0x40 % 0x40 - 0x80) * 0x40
              + (0x80 + n % 0x40 - 0x80) = n := by omega
        unfold utf8DecAux
        simp only [if_neg (by omega : ¬(0xF0 + n / 0x40000 < 0x80)),
          if_neg (by omega : ¬(0xF0 + n / 0x40000 < 0xC0)),
          if_neg (by omega : ¬(0xF0 + n / 0x40000 < 0xE0)),
          if_neg (by omega : ¬(0xF0 + n / 0x40000 < 0xF0)),
          if_pos (by omega : 0xF0 + n / 0x40000 < 0xF8), if_pos e4, e5]

theorem utf8EncodeChar_ne_nil (n : Nat) : utf8EncodeChar n ≠ [] := by
  unfold utf8EncodeChar
  split
  · simp
  · split
    · simp
    · split <;> simp

theorem utf8Dec_encodeChar_append (c : Char) (bs : List Nat) :
    utf8Dec (utf8EncodeChar c.toNat ++ bs)
      = (utf8Dec bs).map (fun cs => c :: cs) := by
  have hn : c.toNat < 0x110000 := char_toNat_lt c
  have hofn : Char.ofNat c.toNat = c := Char.ofNat_toNat c
  have haux := utf8DecAux_encodeChar c.toNat hn bs
  obtain ⟨b0, rest0, hb⟩ :
      ∃ b0 rest0, utf8EncodeChar c.toNat ++ bs = b0 :: rest0 := by
    cases he : utf8EncodeChar c.toNat with
    | nil => exact absurd he (utf8EncodeChar_ne_nil c.toNat)
    | cons x xs => exact ⟨x, xs ++ bs, by simp [he]⟩
  have hlen : (utf8EncodeChar c.toNat).length + bs.length = rest0.length + 1 := by
    have := congrArg List.length hb
    simpa [List.length_append] using this
  have hpos : 0 < (utf8EncodeChar c.toNat).length :=
    List.length_pos.mpr (utf8EncodeChar_ne_nil c.toNat)
  have hrest : bs.length ≤ rest0.length := by omega
  rw [hb] at haux
  simp only [List.headD_cons, List.tail_cons] at haux
  unfold utf8Dec
  rw [hb]
  simp only [List.length_cons, utf8DecFuel, haux, hofn]
  rw [utf8DecFuel_congr rest0.length bs.length bs hrest le_rfl]

theorem utf8Dec_utf8Encode (cs : List Char) : utf8Dec (utf8Encode cs) = some cs := by
  induction cs with
  | nil => rfl
  | cons c cs ih =>
    show utf8Dec (utf8EncodeChar c.toNat ++ utf8Encode cs) = some (c :: cs)
    rw [utf8Dec_encodeChar_append, ih]
    rfl

theorem textDecode_textEncode (s : String) : textDecode (textEncode s) = some s := by
  unfold textDecode textEncode
  rw [utf8Dec_utf8Encode]
  rfl

theorem sendMessage_sent_ok (env : ClientEnv) (st : ClientState) (rid : String) :
    ∀ m ∈ (sendMessage env st rid).2, OutboundOk m := by
  intro m hm
  cases h : mapGet st.peers rid with
  | none => simp [sendMessage, h] at hm
  | some pe =>
    by_cases ht : env.inputText = ""
    · simp [sendMessage, h, ht] at hm
    · simp only [sendMessage, h, if_neg ht] at hm
      have hm' := List.mem_singleton.mp hm
      subst hm'
      exact Or.inr (Or.inr ⟨rid, pe.sharedKey, env.freshIv, env.inputText, rfl⟩)

theorem clientStep_message_sent_nil (env : ClientEnv) (st : ClientState)
    (senderId : String) (ct : Envelope) (spk : Option String) :
    (clientStep env st
      (ClientEvent.wsMessage (ChatMessage.message senderId ct spk))).sent = [] := by
  simp only [clientStep]
  cases mapGet st.peers senderId <;> cases st.myECDHKeyPair <;>
    simp only [] <;>
    repeat' first
      | rfl
      | (split <;> try rfl)

theorem clientStep_sent_ok (env : ClientEnv) (st : ClientState) (ev : ClientEvent) :
    ∀ m ∈ (clientStep env st ev).sent, OutboundOk m := by
  intro m hm
  cases ev with
  | wsMessage msg =>
    cases msg with
    | init sid =>
      simp [clientStep] at hm
      subst hm
      exact Or.inl ⟨env.freshPriv, rfl⟩
    | publicKey pid key =>
      cases hkp : st.myECDHKeyPair with
      | none => simp [clientStep, hkp] at hm
      | some priv =>
        cases hik : importPublicKey key with
        | none => simp [clientStep, hkp, hik] at hm
        | some pk =>
          simp only [clientStep, hkp, hik] at hm
          exact sendMessage_sent_ok env _ pid m hm
    | message sid ct spk =>
      rw [clientStep_message_sent_nil] at hm
      cases hm
  | sendClick rid =>
    by_cases h0 : rid = ""
    · simp [clientStep, h0] at hm
    · by_cases hpe : (mapGet st.peers rid).isNone
      · simp only [clientStep, if_neg h0, hpe, if_pos rfl, if_true] at hm
        have hm' := List.mem_singleton.mp hm
        subst hm'
        exact Or.inr (Or.inl ⟨rid, rfl⟩)
      · simp only [clientStep, if_neg h0, Bool.not_eq_true] at hm
        rw [if_neg hpe] at hm
        exact sendMessage_sent_ok env st rid m hm

theorem clientRun_sent_ok (st : ClientState) (trace : List (ClientEnv × ClientEvent)) :
    ∀ m ∈ (clientRun st trace).2, OutboundOk m := by
  induction trace generalizing st with
  | nil => intro m hm; cases hm
  | cons p rest ih =>
    intro m hm
    obtain ⟨env, ev⟩ := p
    simp only [clientRun] at hm
    rcases List.mem_append.mp hm with h | h
    · exact clientStep_sent_ok env st ev m h
    · exact ih _ m h

/-- C1 counterexample: two simultaneous connections whose random draws
coincide are allocated the same session id, and at the moment of the second
allocation the id is already in use among live sessions, contradicting the
claim that allocation returns an identifier not currently in use and that
ids of simultaneous connections are pairwise distinct. -/
theorem session_id_collision :
    (handleConnection ((handleConnection [] 0 1).1) 0 2).2.1
      = (handleConnection [] 0 1).2.1 ∧
    mapGet ((handleConnection [] 0 1).1)
      ((handleConnection ((handleConnection [] 0 1).1) 0 2).2.1) ≠ none := by
  decide

/-- C1 amended: session id allocation draws a decimal identifier in the range
100000 to 999999 from the random sample without consulting the registry, so
uniqueness among live sessions is not guaranteed; the connection handler
stores the new session under that id, overwriting any live session that
already holds it, and sends exactly the init message on the new socket. -/
theorem session_id_allocation_spec (clients : Registry) (k sock : Nat) :
    handleConnection clients k sock =
      (mapSet clients (generateSessionId k) ⟨generateSessionId k, sock, none⟩,
        generateSessionId k, [(sock, OutgoingMessage.init (generateSessionId k))]) ∧
    ∃ n, generateSessionId k = toString n ∧ 100000 ≤ n ∧ n ≤ 999999 :=
  ⟨rfl, 100000 + k % 900000, rfl, by omega, by omega⟩

/-- C5: for every forward-message received by the relay, if the target
session id is present in the registry the relay sends to that session's
socket exactly one bundle whose from field is the sender's session id, whose
envelope is the received envelope unchanged, and whose senderPublicKey is the
sender's currently-known public key when one has been published and absent
otherwise; if the target id is absent nothing is sent to anyone, the registry
is unchanged and no error is surfaced to the sender. -/
theorem forward_message_routing (clients : Registry) (sid : String) (sock : Nat)
    (to_ : String) (ct : Envelope) :
    handleMessage clients sid sock (Frame.parsed (IncomingMessage.message to_ ct)) =
      match mapGet clients to_ with
      | some recipient =>
        (clients,
          [(recipient.socket,
            OutgoingMessage.message sid ct ((mapGet clients sid).bind Client.publicKey))],
          ([] : List LogLevel))
      | none => (clients, [], []) := by
  cases h : mapGet clients to_ <;> simp [handleMessage, h]

/-- C6 counterexample: session 222222 exists in the registry and has a
published public key, namely the empty string (the publish branch stores the
received key verbatim), yet a request-public-key for it produces no
response: the source guards the reply with the JS truthiness test on
recipient?.publicKey and the empty string is falsy, so the claimed
if-and-only-if fails in the if direction. -/
theorem get_public_key_empty_key_no_response :
    (mapGet [("222222", (⟨"222222", 5, some ""⟩ : Client))] "222222").bind
        Client.publicKey = some "" ∧
    handleMessage [("222222", ⟨"222222", 5, some ""⟩)] "111111" 3
        (Frame.parsed (IncomingMessage.getPublicKey "222222"))
      = ([("222222", ⟨"222222", 5, some ""⟩)], [], []) :=
  ⟨by decide, rfl⟩

/-- C6 amended: for every request-public-key the relay answers the requester
with the public-key-response carrying the peer id and its key exactly when a
session under that id exists and has a published nonempty public key; if the
session is absent, has no key yet, or its published key is the empty string
(falsy under the source's truthiness guard), nothing is sent, no error
response is produced, and in every case the registry is unchanged. -/
theorem get_public_key_response (clients : Registry) (sid : String) (sock : Nat)
    (f : String) :
    handleMessage clients sid sock (Frame.parsed (IncomingMessage.getPublicKey f)) =
      (clients,
        (match (mapGet clients f).bind Client.publicKey with
         | some key =>
           if key = "" then [] else [(sock, OutgoingMessage.publicKey f key)]
         | none => []),
        ([] : List LogLevel)) := by
  cases h : (mapGet clients f).bind Client.publicKey with
  | none => simp [handleMessage, h]
  | some key =>
    by_cases hk : key = "" <;> simp [handleMessage, h, hk]

/-- C7 counterexample: when the sender's session is no longer in the registry
a publish-public-key message makes the handler throw on the non-null
assertion; the catch block logs at error level, not at the warning level the
claim requires. -/
theorem set_public_key_absent_logs_error :
    handleMessage [] "123456" 0 (Frame.parsed (IncomingMessage.publicKey "K"))
      = ([], [], [LogLevel.error]) ∧
    ([LogLevel.error] : List LogLevel) ≠ [LogLevel.warn] :=
  ⟨rfl, by decide⟩

/-- C7 amended: a publish-public-key message overwrites the stored public key
of the sender's session, leaving its other fields and every other session
unchanged; if the sender's session no longer exists the registry is left
unchanged, nothing is sent, only an error-level log is emitted (the thrown
access is caught by the handler's catch-all), and the process does not
crash. -/
theorem set_public_key_spec (clients : Registry) (sid : String) (sock : Nat)
    (key : String) :
    (handleMessage clients sid sock (Frame.parsed (IncomingMessage.publicKey key)) =
      match mapGet clients sid with
      | some c => (mapSet clients sid { c with publicKey := some key }, [], [])
      | none => (clients, [], [LogLevel.error])) ∧
    (∀ j, j ≠ sid →
      mapGet (handleMessage clients sid sock
        (Frame.parsed (IncomingMessage.publicKey key))).1 j = mapGet clients j) := by
  constructor
  · cases h : mapGet clients sid <;> simp [handleMessage, h]
  · intro j hj
    cases h : mapGet clients sid with
    | none => simp [handleMessage, h]
    | some c =>
      simp only [handleMessage, h]
      exact mapGet_mapSet_ne clients sid j _ hj

/-- Witness for C7 amended at a concrete registry: updating session 111111
leaves the lookup of session 222222 unchanged. -/
theorem set_public_key_spec_witness :
    mapGet (handleMessage [("111111", ⟨"111111", 7, none⟩)] "111111" 7
      (Frame.parsed (IncomingMessage.publicKey "K"))).1 "222222"
      = mapGet [("111111", (⟨"111111", 7, none⟩ : Client))] "222222" :=
  (set_public_key_spec [("111111", ⟨"111111", 7, none⟩)] "111111" 7 "K").2
    "222222" (by decide)

/-- C8: a frame that fails to parse or whose kind is unrecognized is logged
(error level for a parse failure, warning level for an unknown kind) and
otherwise ignored: the registry is unchanged and nothing is sent to any
client, so no other connection's session is affected; the handler returns
normally, so neither the connection nor the process is torn down. -/
theorem malformed_or_unknown_ignored (clients : Registry) (sid : String) (sock : Nat) :
    handleMessage clients sid sock Frame.malformed
      = (clients, [], [LogLevel.error]) ∧
    handleMessage clients sid sock Frame.unknownType
      = (clients, [], [LogLevel.warn]) :=
  ⟨rfl, rfl⟩

/-- C2: for any two clients whose key pairs have private scalars a and b, the
shared key a derives from its private key and b's exported public key equals
the shared key b derives from its private key and a's exported public key;
deriveSharedKey is a pure function of its two key inputs, hence deterministic. -/
theorem derive_shared_key_agreement (a b : Nat) :
    deriveSharedKey a (exportPublicKeyNum b)
      = deriveSharedKey b (exportPublicKeyNum a) := by
  unfold deriveSharedKey exportPublicKeyNum
  rw [← Nat.pow_mod, ← Nat.pow_mod, ← pow_mul, ← pow_mul, Nat.mul_comm]

/-- C3: for every plaintext string and every shared key (and every iv draw),
decrypting the envelope produced by encrypting the plaintext under the key
returns exactly that plaintext. -/
theorem encrypt_decrypt_roundtrip (key iv : Nat) (p : String) :
    decryptWithKey key (encryptWithKey key iv p) = some p := by
  show (openBytes key iv (sealBytes key iv (textEncode p))).bind textDecode = some p
  rw [openBytes_sealBytes key iv (textEncode p) (textEncode_lt p)]
  simp [textDecode_textEncode]

/-- C4: an inbound message from a sender with no Peer entry whose embedded
sender public key is missing or fails to import is dropped: the state
(including the peers map and the displayed messages) is unchanged, nothing is
sent, and the handler merely surfaces an error (the rejected promise) rather
than crashing the page. -/
theorem unknown_sender_bad_key_dropped (env : ClientEnv) (st : ClientState)
    (senderId : String) (ct : Envelope) (spk : Option String)
    (hpeer : mapGet st.peers senderId = none)
    (hkey : spk.bind importPublicKey = none) :
    clientStep env st (ClientEvent.wsMessage (ChatMessage.message senderId ct spk))
      = ⟨st, [], true⟩ := by
  cases hkp : st.myECDHKeyPair <;> simp [clientStep, hpeer, hkey, hkp]

/-- Witness for C4 at a concrete state: a fresh client receiving a message
from unknown sender 777777 with the unparseable embedded key zz. -/
theorem unknown_sender_bad_key_dropped_witness :
    clientStep ⟨0, 0, ""⟩ initialClientState
      (ClientEvent.wsMessage (ChatMessage.message "777777" ⟨0, []⟩ (some "zz")))
      = ⟨initialClientState, [], true⟩ :=
  unknown_sender_bad_key_dropped ⟨0, 0, ""⟩ initialClientState "777777" ⟨0, []⟩
    (some "zz") (by decide) (by decide)

/-- C9: every payload a client ever writes to its WebSocket, over any trace of
events from the initial state, is one of: the transport encoding of an
exported public key, a public-key request carrying only a peer id, or an
encryption envelope produced by encryptWithKey; the private key, the derived
shared key and the plaintext are never transmitted. -/
theorem client_only_sends_allowed_payloads (trace : List (ClientEnv × ClientEvent))
    (m : OutboundMessage) (hm : m ∈ (clientRun initialClientState trace).2) :
    OutboundOk m :=
  clientRun_sent_ok initialClientState trace m hm

/-- Witness for C9: a click on send with recipient 654321 before any key is
known makes the client write the key request, an allowed payload. -/
theorem client_only_sends_allowed_payloads_witness :
    OutboundOk (OutboundMessage.getPublicKey "654321") :=
  client_only_sends_allowed_payloads
    [(⟨0, 0, ""⟩, ClientEvent.sendClick "654321")]
    (OutboundMessage.getPublicKey "654321") (by decide)

/-- C10: a public-key-response received before the client has generated its
key pair (myECDHKeyPair still null) is ignored entirely: no Peer entry is
created, nothing is derived, nothing is sent, and no error is raised. -/
theorem public_key_before_keypair_ignored (env : ClientEnv) (st : ClientState)
    (peerId key : String) (h : st.myECDHKeyPair = none) :
    clientStep env st (ClientEvent.wsMessage (ChatMessage.publicKey peerId key))
      = ⟨st, [], false⟩ := by
  simp [clientStep, h]

/-- Witness for C10 at the initial state, which has no key pair. -/
theorem public_key_before_keypair_ignored_witness :
    clientStep ⟨5, 6, "hi"⟩ initialClientState
      (ClientEvent.wsMessage (ChatMessage.publicKey "333333" "17"))
      = ⟨initialClientState, [], false⟩ :=
  public_key_before_keypair_ignored ⟨5, 6, "hi"⟩ initialClientState "333333" "17" rfl

end E2EE
